import Mathlib

/-!
Verification development for the prerequisite-finder repository.

The development shallowly embeds the crawl-and-extract pipeline of
src/scrapers/scraper.py and the lookup function of chatbot.py:

* HTML pages are modelled as trees of nodes (tags with attributes and
  children, plus text nodes), mirroring what BeautifulSoup exposes to the
  scraper: find over descendants in document order, find_next_sibling,
  get_text, and find_all of anchor tags with an href attribute.
* The regular expressions of the scraper are modelled as executable
  matchers over lists of characters, following Python re semantics
  (leftmost match, greedy quantifiers, IGNORECASE where the source
  passes it, non-overlapping findall).
* The network is an oracle from URLs to fetch results; get_html maps
  every failure outcome to none exactly as the requests wrapper does.
* The orchestrator (main) is modelled as a fuel-indexed breadth-first
  loop over an explicit crawl state, followed by the extraction stage
  over the accumulated candidate list.  The extraction stage returns an
  Except value because the source crashes with a KeyError when a record
  passes the filter (scraper.py line 195 reads data with a key that the
  record dictionary does not contain).
-/

/-! ## Character and string helpers -/

/-- ASCII lower-casing of a single character, as str.lower and
re.IGNORECASE behave on the ASCII range used by the scraper. -/
def lowerChar (c : Char) : Char :=
  if 65 ≤ c.toNat ∧ c.toNat ≤ 90 then Char.ofNat (c.toNat + 32) else c

def lowerList (cs : List Char) : List Char := cs.map lowerChar

def lowerStr (s : String) : String := String.mk (lowerList s.data)

/-- The whitespace characters recognised by Python str.strip and by the
regex class backslash-s on ASCII input. -/
def isSpaceChar (c : Char) : Bool :=
  c = ' ' ∨ c = '\t' ∨ c = '\n' ∨ c = '\r' ∨ c = '\x0b' ∨ c = '\x0c'

/-- Does the second list occur at the head of the first? -/
def startsWithL : List Char → List Char → Bool
  | _, [] => true
  | [], _ :: _ => false
  | c :: cs, p :: ps => c = p && startsWithL cs ps

/-- Substring containment on character lists (models Python `in` on str
and re.search of a literal pattern). -/
def containsL : List Char → List Char → Bool
  | [], pat => pat.isEmpty
  | c :: cs, pat => startsWithL (c :: cs) pat || containsL cs pat

/-- Case-insensitive containment of a lowercase literal pattern. -/
def containsCI (s pat : String) : Bool :=
  containsL (lowerList s.data) pat.data

/-- Python str.strip (leading and trailing whitespace removed). -/
def stripL (cs : List Char) : List Char :=
  ((cs.dropWhile (fun c => isSpaceChar c)).reverse.dropWhile
    (fun c => isSpaceChar c)).reverse

def strip (s : String) : String := String.mk (stripL s.data)

/-! ## Regex models

The scraper uses three regular expressions plus a list of literal
keywords; each is modelled as an executable matcher. -/

/-- Two consecutive decimal digits at the head of the list. -/
def twoDigitsAt : List Char → Bool
  | a :: b :: _ => a.isDigit && b.isDigit
  | _ => false

/-- Model of re.search of the pattern backslash-d{2,4}[a-z]? with
IGNORECASE (scraper.py lines 91 and 184).  The trailing letter and the
third and fourth digits are optional, so the search succeeds exactly
when the text contains two consecutive digits. -/
def searchCodeL : List Char → Bool
  | [] => false
  | c :: rest => twoDigitsAt (c :: rest) || searchCodeL rest

def searchCodeSub (s : String) : Bool := searchCodeL s.data

/-- Match of the keyword pattern backslash-d{2,4}[a-z]?- at one position:
a maximal run of 2 to 4 digits, an optional letter, then a hyphen.
Greedy backtracking over the digit counter cannot succeed with fewer
digits than the maximal run (the next character would again be a digit),
so the full run, capped at 4, is the only candidate. -/
def dashPatAt (cs : List Char) : Bool :=
  let run := (cs.takeWhile (fun c => c.isDigit)).length
  if 2 ≤ run ∧ run ≤ 4 then
    match cs.drop run with
    | [] => false
    | c :: rest =>
      if c = '-' then true
      else if c.isAlpha then
        match rest with
        | d :: _ => d = '-'
        | [] => false
      else false
  else false

/-- Model of re.search of backslash-d{2,4}[a-z]?- (the course-code-like
entry of COURSE_LINK_KEYWORDS). -/
def searchDash : List Char → Bool
  | [] => false
  | c :: rest => dashPatAt (c :: rest) || searchDash rest

/-- The literal entries of COURSE_LINK_KEYWORDS (scraper.py lines 40-49);
the final regex entry is modelled by searchDash. -/
def courseLinkKeywords : List String :=
  ["courses/", "subjects/", "syllabus/", "curriculum/", "program/",
   "academic/", "course-detail/"]

/-- Model of the keyword test at scraper.py line 89: any of the keyword
patterns matches the absolute URL, case-insensitively. -/
def keywordAny (u : String) : Bool :=
  courseLinkKeywords.any (fun k => containsCI u k) || searchDash u.data

/-- Model of re.search of the alternation hash-or-javascript-or-mailto
with IGNORECASE (scraper.py line 94). -/
def excludedSub (u : String) : Bool :=
  containsCI u ("#") || containsCI u ("javascript") || containsCI u ("mailto")

/-- Digit part of the course-code token pattern: at least two digits,
greedily up to four, then an optional letter.  Returns the consumed
token characters and the remaining input. -/
def digitsPart (cs : List Char) : Option (List Char × List Char) :=
  let run := (cs.takeWhile (fun c => c.isDigit)).length
  if 2 ≤ run then
    let d := min run 4
    let tok := cs.take d
    let rest := cs.drop d
    match rest with
    | c :: r2 => if c.isAlpha then some (tok ++ [c], r2) else some (tok, rest)
    | [] => some (tok, [])
  else none

/-- Match of the token pattern [A-Z]{2,4}\x20?\d{2,4}[A-Z]? (IGNORECASE)
at the head of the input, following Python backtracking:  the letter
quantifier can only succeed by taking the whole letter run (taking fewer
letters leaves a letter as the next character, which fails both the
optional whitespace and the digit class), so a match requires the
maximal letter run to have length 2 to 4; the optional whitespace, if
taken, must be followed by the digit part, and if the next character is
not whitespace the digit part must start immediately. -/
def codeMatchAt (cs : List Char) : Option (List Char × List Char) :=
  let letters := cs.takeWhile (fun c => c.isAlpha)
  let lena := letters.length
  if 2 ≤ lena ∧ lena ≤ 4 then
    let rest1 := cs.drop lena
    match rest1 with
    | [] => none
    | w :: rest2 =>
      if isSpaceChar w then
        (digitsPart rest2).map (fun p => (letters ++ [w] ++ p.1, p.2))
      else
        (digitsPart rest1).map (fun p => (letters ++ p.1, p.2))
  else none

/-- Model of re.findall of the course-code token pattern (scraper.py
line 144): scan left to right, emit each non-overlapping match, resume
after the end of a match.  The fuel is the input length; every step
consumes at least one character, so the fuel never runs out on the
initial call. -/
def findCodesL : Nat → List Char → List (List Char)
  | 0, _ => []
  | _ + 1, [] => []
  | fuel + 1, c :: rest =>
    match codeMatchAt (c :: rest) with
    | some (tok, rem) => tok :: findCodesL fuel rem
    | none => findCodesL fuel rest

def findCodes (s : String) : List String :=
  (findCodesL s.data.length s.data).map String.mk

/-- Python str.join with separator comma-space, as used at line 145. -/
def joinComma : List String → String
  | [] => ""
  | x :: xs => xs.foldl (fun a b => a ++ ", " ++ b) x

/-- Lines 144-145 of scraper.py: join the found course codes, or fall
back to the raw prerequisite text when no code matches. -/
def structuredPrereqs (raw : String) : String :=
  let codes := findCodes raw
  if codes = [] then raw else joinComma codes

/-! ## HTML model -/

/-- A parsed HTML node: either a text fragment or an element with a tag
name, attributes and children.  This models what BeautifulSoup exposes
to the scraper. -/
inductive Node where
  | text (s : String) : Node
  | elem (tag : String) (attrs : List (String × String)) (children : List Node) : Node

/-- Attribute lookup on an element (link[href-key] in the source). -/
def lookupAttr : List (String × String) → String → Option String
  | [], _ => none
  | (k, v) :: rest, key => if k = key then some v else lookupAttr rest key

/-- All text fragments of a node forest in document order.  The fuel
bounds the tree depth; concrete pages in this file are shallow and are
always evaluated with ample fuel. -/
def textFrags : Nat → List Node → List String
  | 0, _ => []
  | _ + 1, [] => []
  | fuel + 1, n :: rest =>
    (match n with
     | Node.text s => [s]
     | Node.elem _ _ cs => textFrags fuel cs) ++ textFrags fuel rest

/-- BeautifulSoup get_text with no arguments: concatenation of all text
fragments. -/
def getText (fuel : Nat) (ns : List Node) : String :=
  String.join (textFrags fuel ns)

def joinSpace : List String → String
  | [] => ""
  | x :: xs => xs.foldl (fun a b => a ++ " " ++ b) x

/-- BeautifulSoup get_text(separator=space, strip=True): each fragment
is stripped, whitespace-only fragments are dropped, and the remaining
fragments are joined with a single space. -/
def getTextSp (fuel : Nat) (n : Node) : String :=
  joinSpace (((textFrags fuel [n]).map strip).filter (fun s => s ≠ ""))

/-- First element with one of the given tags among a sibling list
(models find_next_sibling with a list of names, which skips text
siblings and elements with other tags). -/
def firstTagIn (tags : List String) : List Node → Option Node
  | [] => none
  | Node.text _ :: rest => firstTagIn tags rest
  | Node.elem t a c :: rest =>
    if t ∈ tags then some (Node.elem t a c) else firstTagIn tags rest

/-- Document-order (pre-order) search for the first element whose tag is
in the given list: models soup.find with a list of tag names. -/
def findFirstTag (tags : List String) : Nat → List Node → Option Node
  | 0, _ => none
  | _ + 1, [] => none
  | fuel + 1, n :: rest =>
    match n with
    | Node.text _ => findFirstTag tags fuel rest
    | Node.elem t a c =>
      if t ∈ tags then some (Node.elem t a c)
      else
        match findFirstTag tags fuel c with
        | some m => some m
        | none => findFirstTag tags fuel rest

def headingTags : List String := ["h2", "h3", "h4", "strong"]

def blockTags : List String := ["p", "ul", "div"]

def titleTags : List String := ["h1", "h2", "h3"]

/-- Document-order search for the prerequisite heading of scraper.py
lines 119-120: the first h2, h3, h4 or strong element whose get_text,
lower-cased, contains the word prerequisite.  Returns the list of
following siblings of the found element, which is what
find_next_sibling then inspects. -/
def findHeadSibs (df : Nat) : Nat → List Node → Option (List Node)
  | 0, _ => none
  | _ + 1, [] => none
  | fuel + 1, n :: rest =>
    match n with
    | Node.text _ => findHeadSibs df fuel rest
    | Node.elem t a c =>
      if t ∈ headingTags ∧ containsCI (getText df [Node.elem t a c]) ("prerequisite") then
        some rest
      else
        match findHeadSibs df fuel c with
        | some sibs => some sibs
        | none => findHeadSibs df fuel rest

/-- Pre-order collection of the href attributes of all anchor elements:
models soup.find_all of anchors with href=True at scraper.py line 84. -/
def anchorHrefs : Nat → List Node → List String
  | 0, _ => []
  | _ + 1, [] => []
  | fuel + 1, n :: rest =>
    (match n with
     | Node.text _ => []
     | Node.elem t a c =>
       (match (if t = "a" then lookupAttr a ("href") else none) with
        | some h => [h]
        | none => []) ++ anchorHrefs fuel c) ++ anchorHrefs fuel rest

/-! ## URL model (urllib.parse subset) -/

def isSchemeChar (c : Char) : Bool :=
  c.isAlpha || c.isDigit || c = '+' || c = '-' || c = '.'

/-- Split a URL into scheme and remainder, as urllib.parse does: a
leading run of scheme characters starting with a letter, followed by a
colon. -/
def splitScheme (cs : List Char) : Option (List Char × List Char) :=
  let s := cs.takeWhile isSchemeChar
  match cs.drop s.length with
  | ':' :: r =>
    match s with
    | c :: _ => if c.isAlpha then some (s, r) else none
    | [] => none
  | _ => none

def notNetlocEnd (c : Char) : Bool := c ≠ '/' ∧ c ≠ '?' ∧ c ≠ '#'

/-- urlparse(u).netloc: the authority component after the double slash,
up to the next slash, question mark or hash; empty when the URL has no
authority. -/
def netlocOf (u : String) : String :=
  let rest := match splitScheme u.data with
              | some p => p.2
              | none => u.data
  match rest with
  | '/' :: '/' :: r => String.mk (r.takeWhile notNetlocEnd)
  | _ => ""

/-- The scheme-plus-host notion of domain used by the specification text
of claim C4 (the source itself compares only netloc). -/
def schemeHostOf (u : String) : String :=
  (match splitScheme u.data with
   | some p => String.mk p.1
   | none => "") ++ "://" ++ netlocOf u

/-- Everything up to and including the last slash (used for relative
reference resolution); empty when there is no slash. -/
def dropAfterLastSlash (cs : List Char) : List Char :=
  ((cs.reverse.dropWhile (fun c => c ≠ '/'))).reverse

/-- Models urllib.parse.urljoin for the cases this development
exercises: empty references, absolute references carrying their own
scheme, scheme-relative references, root-relative paths, and simple
relative paths appended to the base directory.  Dot-segment
normalization and the query/fragment merge rules are not modelled; all
concrete pages in this file use absolute hrefs, which urljoin returns
unchanged. -/
def urljoin (base url : String) : String :=
  if url = "" then base
  else
    match splitScheme url.data with
    | some _ => url
    | none =>
      match splitScheme base.data with
      | none => url
      | some bp =>
        let pre := bp.1 ++ [':']
        match url.data with
        | '/' :: '/' :: _ => String.mk (pre ++ url.data)
        | '/' :: _ =>
          match bp.2 with
          | '/' :: '/' :: r =>
            let nl := r.takeWhile notNetlocEnd
            String.mk (pre ++ ['/', '/'] ++ nl ++ url.data)
          | _ => String.mk (pre ++ url.data)
        | _ =>
          match bp.2 with
          | '/' :: '/' :: r =>
            let nl := r.takeWhile notNetlocEnd
            let path := (r.drop nl.length).takeWhile (fun c => c ≠ '?' ∧ c ≠ '#')
            let dir := dropAfterLastSlash path
            let dir2 := if dir = [] then ['/'] else dir
            String.mk (pre ++ ['/', '/'] ++ nl ++ dir2 ++ url.data)
          | _ => url

/-! ## Fetcher model -/

/-- Outcome of one HTTP GET: a successful 2xx response carrying the
parsed page, or one of the failure modes the requests wrapper catches.
A 2xx response with an empty body is falsy at both call sites of
get_html exactly like a failure, so it is subsumed by the failure
constructors. -/
inductive FetchResult where
  | success (doc : List Node) : FetchResult
  | networkError : FetchResult
  | httpError : FetchResult
  | timeout : FetchResult

/-- The network oracle: what one GET of each URL returns during the
crawl run. -/
def Web : Type := String → FetchResult

def isFail : FetchResult → Bool
  | FetchResult.success _ => false
  | _ => true

/-- get_html (scraper.py lines 52-68): the parsed page on success, none
on any caught failure. -/
def get_html (web : Web) (url : String) : Option (List Node) :=
  match web url with
  | FetchResult.success doc => some doc
  | _ => none

/-! ## Link classifier (find_course_links, scraper.py lines 71-96) -/

/-- Add to a Python set modelled as an insertion-ordered duplicate-free
list. -/
def addIfNew (l : List String) (u : String) : List String :=
  if u ∈ l then l else l ++ [u]

/-- find_course_links: resolve each anchor href against the base URL;
keep it when a keyword pattern matches and either it contains a
course-code-like digit pattern (line 91) or, failing that, it contains
none of hash, javascript, mailto (line 94). -/
def linkStep (base_url : String) (links : List String) (href : String) : List String :=
  let absolute_url := urljoin base_url href
  if keywordAny absolute_url then
    if searchCodeSub absolute_url then addIfNew links absolute_url
    else if excludedSub absolute_url then links
    else addIfNew links absolute_url
  else links

def find_course_links (df : Nat) (html : List Node) (base_url : String) : List String :=
  (anchorHrefs df html).foldl (linkStep base_url) []

/-- The retention predicate implicit in find_course_links: a resolved
URL is kept iff a keyword matches and (it has a course-code digit
pattern or it is not a fragment/javascript/mailto link). -/
def keepLink (u : String) : Bool :=
  keywordAny u && (searchCodeSub u || !(excludedSub u))

/-! ## Extractor (scrape_prerequisites, scraper.py lines 99-153) -/

/-- Step 1 of prerequisite extraction (lines 119-124): the text of the
first paragraph, list or generic block following the prerequisite
heading, when both exist. -/
def siblingStatement (df : Nat) (doc : List Node) : Option String :=
  match findHeadSibs df df doc with
  | none => none
  | some sibs =>
    match firstTagIn blockTags sibs with
    | none => none
    | some n => some (getTextSp df n)

/-- Strip the word prerequisite, an optional letter s and an optional
colon from the head of the input; keeps the remainder.  Leftmost search
for the word, mirroring re.search. -/
def afterPrereqKey : List Char → Option (List Char)
  | [] => none
  | c :: rest =>
    if startsWithL (lowerList (c :: rest)) (String.data ("prerequisite")) then
      some ((c :: rest).drop 12)
    else afterPrereqKey rest

/-- Step 2 of prerequisite extraction (lines 127-132): re.search of
prerequisite[s]?:?\x5cs*(.*) over the whole page text, IGNORECASE, then
the first period-delimited sentence of group 1, stripped.  The pattern
tail after the literal word always matches, so the leftmost match
starts at the first occurrence of the word; [s]? and :? are greedy with
nothing to backtrack into; \x5cs* greedily crosses newlines; (.*) stops
at the first newline because DOTALL is not set. -/
def fallbackOfText (body : List Char) : Option (List Char) :=
  match afterPrereqKey body with
  | none => none
  | some rest0 =>
    let rest1 := match rest0 with
                 | c :: r => if lowerChar c = 's' then r else rest0
                 | [] => rest0
    let rest2 := match rest1 with
                 | ':' :: r => r
                 | _ => rest1
    let rest3 := rest2.dropWhile (fun c => isSpaceChar c)
    let line := rest3.takeWhile (fun c => c ≠ '\n')
    some (stripL (line.takeWhile (fun c => c ≠ '.')))

def fallbackStatement (df : Nat) (doc : List Node) : Option String :=
  (fallbackOfText (getText df doc).data).map String.mk

/-- The prereq_text variable at the end of lines 117-132: the sibling
text when the heading path produced a non-empty string; otherwise the
fallback search result; when the sibling text was the empty string and
the fallback fails, the empty string is kept (Python leaves the
variable bound to the falsy empty string). -/
def prereqText (df : Nat) (doc : List Node) : Option String :=
  match siblingStatement df doc with
  | none => fallbackStatement df doc
  | some s =>
    if s = "" then
      match fallbackStatement df doc with
      | some f => some f
      | none => some s
    else some s

/-- Split on slash and keep the last segment (url.split and negative
index at line 140). -/
def lastSlashSeg (cs : List Char) : List Char :=
  (cs.reverse.takeWhile (fun c => c ≠ '/')).reverse

def sepToSpace (c : Char) : Char :=
  if c = '-' ∨ c = '_' then ' ' else c

/-- Title extraction (lines 135-140): first h1, h2 or h3 in document
order, else the title element, else the last URL path segment with
hyphens and underscores replaced by spaces; stripped in every case. -/
def pageTitle (df : Nat) (doc : List Node) (url : String) : String :=
  match findFirstTag titleTags df doc with
  | some n => strip (getText df [n])
  | none =>
    match findFirstTag [("title")] df doc with
    | some n => strip (getText df [n])
    | none => String.mk (stripL ((lastSlashSeg url.data).map sepToSpace))

/-- The record dictionary built at lines 149-153. -/
structure CourseRecord where
  title : String
  prerequisites : String
  source : String
deriving DecidableEq

/-- The sentinel written when no prerequisite text was found. -/
def sentinel : String := "Not specified"

/-- Dictionary lookup on the record literal of lines 149-153: exactly
the three keys title, prerequisites and source are present. -/
def recGet (r : CourseRecord) (k : String) : Option String :=
  if k = "title" then some r.title
  else if k = "prerequisites" then some r.prerequisites
  else if k = "source" then some r.source
  else none

/-- The key the logging line 195 actually reads; it is not a key of the
record dictionary, so the read raises KeyError. -/
def typoKey : String := "prereqs"

/-- scrape_prerequisites: none when the fetch fails, otherwise a record
with the extracted title, the structured prerequisite value (or the
sentinel when no truthy raw statement was found) and the source URL. -/
def scrape_prerequisites (df : Nat) (web : Web) (url : String) : Option CourseRecord :=
  match get_html web url with
  | none => none
  | some doc =>
    let pt := prereqText df doc
    let prereqs :=
      match pt with
      | some s => if s = "" then sentinel else structuredPrereqs s
      | none => sentinel
    some { title := pageTitle df doc url, prerequisites := prereqs, source := url }

/-! ## Crawl orchestrator (main, scraper.py lines 156-204) -/

/-- The orchestrator state: the FIFO traversal queue, the visited set,
the candidate course pages (both insertion-ordered set models), and the
ghost trace of URLs fetched during traversal. -/
structure CrawlSt where
  queue : List String
  visited : List String
  cands : List String
  fetched : List String
deriving DecidableEq

/-- Lines 177-185: handling of one discovered link.  Already-visited
links are ignored; a fresh link is marked visited, enqueued when its
netloc equals the netloc of the page it was found on, and added to the
candidate set when it contains a course-code digit pattern. -/
def processLink (current_url : String) (st : CrawlSt) (link : String) : CrawlSt :=
  if link ∈ st.visited then st
  else
    { queue := if netlocOf link = netlocOf current_url
               then st.queue ++ [link] else st.queue
      visited := st.visited ++ [link]
      cands := if searchCodeSub link then addIfNew st.cands link else st.cands
      fetched := st.fetched }

/-- Lines 173-185: fetch one dequeued URL and process its links; a
failed fetch leaves the state unchanged. -/
def processPage (df : Nat) (web : Web) (st : CrawlSt) (current_url : String) : CrawlSt :=
  match get_html web current_url with
  | none => st
  | some html => (find_course_links df html current_url).foldl (processLink current_url) st

/-- The while loop of lines 169-185, indexed by fuel (the source has no
depth bound; every property proved below holds for every fuel). -/
def crawlLoop (df : Nat) (web : Web) : Nat → CrawlSt → CrawlSt
  | 0, st => st
  | fuel + 1, st =>
    match st.queue with
    | [] => st
    | u :: rest =>
      crawlLoop df web fuel
        (processPage df web { queue := rest, visited := st.visited,
                              cands := st.cands, fetched := st.fetched ++ [u] } u)

/-- Python exceptions that the model can raise. -/
inductive PyErr where
  | keyError (key : String) : PyErr
deriving DecidableEq

/-- The extraction loop of lines 190-197.  Returns the trace of
candidate URLs actually scraped and either the accumulated record list
(reaching the json.dump at line 199) or the KeyError raised by the
logging line 195, which reads the nonexistent key prereqs right after a
record passes the filter. -/
def scrapeStage (df : Nat) (web : Web) :
    List String → List CourseRecord → List String × Except PyErr (List CourseRecord)
  | [], acc => ([], Except.ok acc)
  | u :: rest, acc =>
    match scrape_prerequisites df web u with
    | none =>
      let r := scrapeStage df web rest acc
      (u :: r.1, r.2)
    | some d =>
      if d.title ≠ "" ∧ d.prerequisites ≠ sentinel then
        match recGet d typoKey with
        | none => ([u], Except.error (PyErr.keyError typoKey))
        | some _ =>
          let r := scrapeStage df web rest (acc ++ [d])
          (u :: r.1, r.2)
      else
        let r := scrapeStage df web rest acc
        (u :: r.1, r.2)

/-- Result of one whole run of main: the final traversal state, the
trace of URLs fetched by the extraction stage, and either the list
handed to json.dump or the raised exception. -/
structure RunResult where
  traversal : CrawlSt
  scrapeLog : List String
  outcome : Except PyErr (List CourseRecord)

/-- main (lines 156-204): seed the queue and the visited set with the
starting URLs, drain the queue, then scrape every accumulated candidate
page. -/
def initSt (seeds : List String) : CrawlSt :=
  { queue := seeds, visited := seeds, cands := [], fetched := [] }

def mainModel (df fuel : Nat) (web : Web) (seeds : List String) : RunResult :=
  { traversal := crawlLoop df web fuel (initSt seeds)
    scrapeLog := (scrapeStage df web (crawlLoop df web fuel (initSt seeds)).cands []).1
    outcome := (scrapeStage df web (crawlLoop df web fuel (initSt seeds)).cands []).2 }

/-- The record filter of line 193 as a boolean: truthy title and
non-sentinel prerequisites. -/
def goodRec (r : CourseRecord) : Bool :=
  (r.title != "") && (r.prerequisites != sentinel)

/-! ## Lookup CLI (chatbot.py lines 51-69) -/

/-- The message returned for the first case-insensitively matching
course. -/
def mkFound (c : CourseRecord) : String :=
  "The prerequisites for \x27" ++ c.title ++ "\x27 are: " ++ c.prerequisites ++
    ". (Source: " ++ c.source ++ ")"

/-- The not-found message of line 69. -/
def notFoundMsg (q : String) : String :=
  "Sorry, I could not find a course named \x27" ++ q ++ "\x27 in the database."

/-- find_prerequisites: scan the dataset in order and answer with the
first course whose title matches the query up to case; the not-found
message when none does. -/
def find_prerequisites (course_name : String) : List CourseRecord → String
  | [] => notFoundMsg course_name
  | c :: rest =>
    if lowerStr c.title = lowerStr course_name then mkFound c
    else find_prerequisites course_name rest

/-! ## Invariants of the crawl state -/

/-- Basic crawl-state invariant: every URL ever fetched or queued has
been marked visited, the seeds are visited from the start, and no
candidate is a seed. -/
def Inv0 (seeds : List String) (st : CrawlSt) : Prop :=
  (∀ u, u ∈ st.fetched ++ st.queue → u ∈ st.visited) ∧
  (∀ s, s ∈ seeds → s ∈ st.visited) ∧
  (∀ c, c ∈ st.cands → c ∉ seeds)

/-- No-duplication invariant: the traversal fetch trace together with
the pending queue is duplicate-free, and so is the candidate set. -/
def InvN (st : CrawlSt) : Prop :=
  (st.fetched ++ st.queue).Nodup ∧ st.cands.Nodup

/-! ## Concrete fixtures

A small concrete web used to run the model: one seed page linking to
one same-host course page that carries a title, a prerequisite heading
and a prerequisite paragraph. -/

def urlSeed : String := "http://a/start"

def urlCourse : String := "http://a/courses/cs-101"

def docSeed : List Node := [Node.elem ("a") [("href", urlCourse)] []]

def docCourse : List Node :=
  [Node.elem ("h1") [] [Node.text ("Algo")],
   Node.elem ("h2") [] [Node.text ("Prerequisites")],
   Node.elem ("p") [] [Node.text ("CS 100.")]]

def web1 : Web := fun u =>
  if u = urlSeed then FetchResult.success docSeed
  else if u = urlCourse then FetchResult.success docCourse
  else FetchResult.networkError

/-- A web on which every fetch fails. -/
def webFail : Web := fun _ => FetchResult.networkError

/-- The raw prerequisite statement extracted from docCourse. -/
def kRaw : String := "CS 100."

/-- A page whose prerequisite heading is followed by an empty paragraph
(so the sibling text is the empty string) while the page body also
contains fallback-matchable text. -/
def docCE : List Node :=
  [Node.elem ("h2") [] [Node.text ("Prerequisites")],
   Node.elem ("p") [] [],
   Node.elem ("p") [] [Node.text ("ignored")],
   Node.text ("prerequisite: CS 500.")]

/-- A page with one anchor whose URL has both a course-code digit
pattern and a fragment marker. -/
def urlHash : String := "https://x.edu/courses/101#top"

def docHash : List Node := [Node.elem ("a") [("href", urlHash)] []]

def baseHash : String := "https://x.edu/"

/-- Fixture states for the per-link orchestrator step. -/
def stFresh : CrawlSt :=
  { queue := [], visited := [urlSeed], cands := [], fetched := [urlSeed] }

/-- The same-host different-scheme link discovered on the seed page. -/
def urlHttps : String := "https://a/courses/x99"

/-- A cross-host course-like link that is already visited. -/
def urlSeenB : String := "http://b/courses/55"

def stSeenB : CrawlSt :=
  { queue := [], visited := [urlSeed, urlSeenB], cands := [], fetched := [urlSeed] }

/-- A cross-host course-like link that is not yet visited. -/
def urlOther : String := "http://other/courses/77"

def stV : CrawlSt := { queue := [], visited := [urlSeed], cands := [], fetched := [] }

/-- Chatbot fixture dataset. -/
def recW : CourseRecord :=
  { title := "Intro To Algorithms", prerequisites := "CS 100", source := "http://a" }

def dataW : List CourseRecord := [recW]

def queryW : String := "intro to algorithms"

/-- A raw prerequisite statement containing the same token twice. -/
def dupRaw : String := "CS 101 and CS 101"

/-- What the fallback search extracts from docCE. -/
def ceRaw : String := "ignoredprerequisite: CS 500"

/-- A URL every fixture web fails to serve. -/
def urlNope : String := "http://nope/x"

/-! ## Helper lemmas -/

theorem mem_addIfNew {l : List String} {x u : String} :
    u ∈ addIfNew l x ↔ u ∈ l ∨ u = x := by
  by_cases h : x ∈ l <;> simp [addIfNew, h]
  exact fun he => he ▸ h

theorem nodup_addIfNew {l : List String} {x : String} (h : l.Nodup) :
    (addIfNew l x).Nodup := by
  by_cases hx : x ∈ l <;> simp [addIfNew, hx, h, List.nodup_append]

theorem fetched_processLink (cur : String) (st : CrawlSt) (link : String) :
    (processLink cur st link).fetched = st.fetched := by
  unfold processLink
  split <;> rfl

theorem mem_visited_processLink {cur : String} {st : CrawlSt} {link u : String}
    (h : u ∈ st.visited) : u ∈ (processLink cur st link).visited := by
  unfold processLink
  split
  · exact h
  · exact List.mem_append_left _ h

theorem mem_queue_processLink {cur : String} {st : CrawlSt} {link u : String}
    (h : u ∈ (processLink cur st link).queue) :
    u ∈ st.queue ∨ (u = link ∧ link ∉ st.visited ∧ netlocOf link = netlocOf cur) := by
  unfold processLink at h
  by_cases hv : link ∈ st.visited
  · simp [hv] at h
    exact Or.inl h
  · simp only [hv, if_false, if_neg] at h
    by_cases hn : netlocOf link = netlocOf cur
    · simp [hn] at h
      rcases h with h | h
      · exact Or.inl h
      · exact Or.inr ⟨h, hv, hn⟩
    · simp [hn] at h
      exact Or.inl h

theorem mem_cands_processLink {cur : String} {st : CrawlSt} {link u : String}
    (h : u ∈ (processLink cur st link).cands) :
    u ∈ st.cands ∨ (u = link ∧ link ∉ st.visited) := by
  unfold processLink at h
  by_cases hv : link ∈ st.visited
  · simp [hv] at h
    exact Or.inl h
  · simp only [hv, if_false, if_neg] at h
    by_cases hc : searchCodeSub link = true
    · simp [hc, mem_addIfNew] at h
      rcases h with h | h
      · exact Or.inl h
      · exact Or.inr ⟨h, hv⟩
    · simp [hc] at h
      exact Or.inl h

theorem link_mem_visited_processLink {cur : String} {st : CrawlSt} {link : String}
    (hv : link ∉ st.visited) : link ∈ (processLink cur st link).visited := by
  unfold processLink
  simp [hv]

theorem inv0_processLink (seeds : List String) (cur : String) (st : CrawlSt)
    (link : String) (h : Inv0 seeds st) : Inv0 seeds (processLink cur st link) := by
  obtain ⟨hfq, hseed, hcand⟩ := h
  refine ⟨?_, ?_, ?_⟩
  · intro u hu
    rcases List.mem_append.1 hu with hf | hqq
    · rw [fetched_processLink] at hf
      exact mem_visited_processLink (hfq u (List.mem_append_left _ hf))
    · rcases mem_queue_processLink hqq with hold | ⟨he, hfresh, _⟩
      · exact mem_visited_processLink (hfq u (List.mem_append_right _ hold))
      · subst he
        exact link_mem_visited_processLink hfresh
  · intro s hs
    exact mem_visited_processLink (hseed s hs)
  · intro c hc
    rcases mem_cands_processLink hc with hold | ⟨he, hfresh⟩
    · exact hcand c hold
    · subst he
      exact fun hcs => hfresh (hseed c hcs)

theorem invN_processLink (seeds : List String) (cur : String) (st : CrawlSt)
    (link : String) (h0 : Inv0 seeds st) (hN : InvN st) :
    InvN (processLink cur st link) := by
  obtain ⟨hfq, _, _⟩ := h0
  obtain ⟨hnd, hndc⟩ := hN
  unfold processLink
  by_cases hv : link ∈ st.visited
  · simpa [hv] using ⟨hnd, hndc⟩
  · have hfresh : link ∉ st.fetched ++ st.queue := fun hm => hv (hfq link hm)
    have hq2 : (st.fetched ++ (st.queue ++ [link])).Nodup := by
      rw [← List.append_assoc, List.nodup_append]
      refine ⟨hnd, List.nodup_singleton link, ?_⟩
      intro a ha hb
      rw [List.mem_singleton] at hb
      subst hb
      exact hfresh ha
    by_cases hn : netlocOf link = netlocOf cur <;> by_cases hc : searchCodeSub link = true <;>
      simp only [hv, hn, hc, if_true, if_false, ite_true, ite_false, if_neg, not_false_iff] <;>
      exact ⟨by simp [hq2, hnd], by simp [nodup_addIfNew hndc, hndc]⟩

theorem inv_foldl (seeds : List String) (cur : String) :
    ∀ (links : List String) (st : CrawlSt), Inv0 seeds st →
      Inv0 seeds (links.foldl (processLink cur) st) ∧
      (InvN st → InvN (links.foldl (processLink cur) st))
  | [], st, h => ⟨h, id⟩
  | l :: ls, st, h => by
    have h1 := inv0_processLink seeds cur st l h
    have h2 := inv_foldl seeds cur ls (processLink cur st l) h1
    exact ⟨h2.1, fun hN => h2.2 (invN_processLink seeds cur st l h hN)⟩

theorem inv_processPage (df : Nat) (seeds : List String) (web : Web) (st : CrawlSt)
    (u : String) (h : Inv0 seeds st) :
    Inv0 seeds (processPage df web st u) ∧
    (InvN st → InvN (processPage df web st u)) := by
  unfold processPage
  cases hg : get_html web u with
  | none => exact ⟨h, id⟩
  | some doc => exact inv_foldl seeds u (find_course_links df doc u) st h

theorem inv_crawlLoop (df : Nat) (seeds : List String) (web : Web) :
    ∀ (fuel : Nat) (st : CrawlSt), Inv0 seeds st →
      Inv0 seeds (crawlLoop df web fuel st) ∧
      (InvN st → InvN (crawlLoop df web fuel st))
  | 0, _, h => ⟨h, id⟩
  | fuel + 1, st, h => by
    cases hq : st.queue with
    | nil =>
      simp only [crawlLoop, hq]
      exact ⟨h, id⟩
    | cons u rest =>
      have heq : st.fetched ++ st.queue = (st.fetched ++ [u]) ++ rest := by
        rw [hq]
        simp
      have h1 : Inv0 seeds { queue := rest, visited := st.visited,
                             cands := st.cands, fetched := st.fetched ++ [u] } := by
        obtain ⟨hfq, hs, hc⟩ := h
        refine ⟨?_, hs, hc⟩
        intro v hv
        apply hfq
        rw [heq]
        exact hv
      have h2 := inv_processPage df seeds web _ u h1
      have h3 := inv_crawlLoop df seeds web fuel _ h2.1
      refine ⟨?_, ?_⟩
      · simp only [crawlLoop, hq]
        exact h3.1
      · intro hN
        simp only [crawlLoop, hq]
        refine h3.2 (h2.2 ?_)
        obtain ⟨hnd, hndc⟩ := hN
        exact ⟨by rw [heq] at hnd; exact hnd, hndc⟩

theorem recGet_typoKey (d : CourseRecord) : recGet d typoKey = none := rfl

theorem scrapeLog_mem (df : Nat) (web : Web) :
    ∀ (l : List String) (acc : List CourseRecord) (x : String),
      x ∈ (scrapeStage df web l acc).1 → x ∈ l
  | [], acc, x => by simp [scrapeStage]
  | u :: rest, acc, x => by
    intro hx
    unfold scrapeStage at hx
    cases hs : scrape_prerequisites df web u with
    | none =>
      rw [hs] at hx
      simp at hx
      rcases hx with hx | hx
      · simp [hx]
      · exact List.mem_cons_of_mem u (scrapeLog_mem df web rest acc x hx)
    | some d =>
      rw [hs] at hx
      dsimp only at hx
      by_cases hf : d.title ≠ "" ∧ d.prerequisites ≠ sentinel
      · rw [if_pos hf, recGet_typoKey] at hx
        simp at hx
        simp [hx]
      · rw [if_neg hf] at hx
        simp at hx
        rcases hx with hx | hx
        · simp [hx]
        · exact List.mem_cons_of_mem u (scrapeLog_mem df web rest acc x hx)

theorem scrapeLog_nodup (df : Nat) (web : Web) :
    ∀ (l : List String) (acc : List CourseRecord), l.Nodup →
      (scrapeStage df web l acc).1.Nodup
  | [], acc, _ => by simp [scrapeStage]
  | u :: rest, acc, h => by
    rw [List.nodup_cons] at h
    unfold scrapeStage
    cases hs : scrape_prerequisites df web u with
    | none =>
      refine List.nodup_cons.2 ⟨?_, scrapeLog_nodup df web rest acc h.2⟩
      exact fun hm => h.1 (scrapeLog_mem df web rest acc u hm)
    | some d =>
      dsimp only
      by_cases hf : d.title ≠ "" ∧ d.prerequisites ≠ sentinel
      · rw [if_pos hf, recGet_typoKey]
        simp
      · rw [if_neg hf]
        refine List.nodup_cons.2 ⟨?_, scrapeLog_nodup df web rest acc h.2⟩
        exact fun hm => h.1 (scrapeLog_mem df web rest acc u hm)

theorem scrapeStage_ok_all (df : Nat) (web : Web) :
    ∀ (l : List String) (acc out : List CourseRecord),
      acc.all goodRec = true → (scrapeStage df web l acc).2 = Except.ok out →
      out.all goodRec = true
  | [], acc, out, hacc, hok => by
    simp [scrapeStage] at hok
    rw [← hok]
    exact hacc
  | u :: rest, acc, out, hacc, hok => by
    unfold scrapeStage at hok
    cases hs : scrape_prerequisites df web u with
    | none =>
      rw [hs] at hok
      exact scrapeStage_ok_all df web rest acc out hacc hok
    | some d =>
      rw [hs] at hok
      dsimp only at hok
      by_cases hf : d.title ≠ "" ∧ d.prerequisites ≠ sentinel
      · rw [if_pos hf, recGet_typoKey] at hok
        exact absurd hok (by simp)
      · rw [if_neg hf] at hok
        exact scrapeStage_ok_all df web rest acc out hacc hok

theorem head_mkFound (c : CourseRecord) : (mkFound c).data.head? = some 'T' := by
  unfold mkFound
  repeat rw [String.data_append]
  rfl

theorem head_notFound (q : String) : (notFoundMsg q).data.head? = some 'S' := by
  unfold notFoundMsg
  repeat rw [String.data_append]
  rfl

theorem mkFound_ne_notFound (c : CourseRecord) (q : String) :
    mkFound c ≠ notFoundMsg q := by
  intro h
  have h1 := head_mkFound c
  rw [h, head_notFound] at h1
  exact absurd h1 (by decide)

theorem mem_linkStep (base : String) (links : List String) (href u : String) :
    u ∈ linkStep base links href ↔
      u ∈ links ∨ (urljoin base href = u ∧ keepLink u = true) := by
  unfold linkStep
  by_cases hk : keywordAny (urljoin base href) = true
  · by_cases hc : searchCodeSub (urljoin base href) = true
    · rw [if_pos hk, if_pos hc, mem_addIfNew]
      constructor
      · rintro (h | h)
        · exact Or.inl h
        · exact Or.inr ⟨h.symm, by rw [h]; simp [keepLink, hk, hc]⟩
      · rintro (h | ⟨he, _⟩)
        · exact Or.inl h
        · exact Or.inr he.symm
    · by_cases hex : excludedSub (urljoin base href) = true
      · rw [if_pos hk, if_neg (by simp [hc]), if_pos hex]
        constructor
        · exact Or.inl
        · rintro (h | ⟨he, hkeep⟩)
          · exact h
          · rw [← he] at hkeep
            simp [keepLink, hk, hc, hex] at hkeep
      · rw [if_pos hk, if_neg (by simp [hc]), if_neg (by simp [hex]), mem_addIfNew]
        constructor
        · rintro (h | h)
          · exact Or.inl h
          · exact Or.inr ⟨h.symm, by rw [h]; simp [keepLink, hk, hc, hex]⟩
        · rintro (h | ⟨he, _⟩)
          · exact Or.inl h
          · exact Or.inr he.symm
  · rw [if_neg (by simp [hk])]
    constructor
    · exact Or.inl
    · rintro (h | ⟨he, hkeep⟩)
      · exact h
      · rw [← he] at hkeep
        simp [keepLink, hk] at hkeep

theorem mem_foldl_linkStep (base : String) :
    ∀ (hrefs acc : List String) (u : String),
      u ∈ hrefs.foldl (linkStep base) acc ↔
        u ∈ acc ∨ ∃ h, h ∈ hrefs ∧ urljoin base h = u ∧ keepLink u = true
  | [], acc, u => by simp
  | h0 :: hs, acc, u => by
    rw [List.foldl_cons, mem_foldl_linkStep base hs (linkStep base acc h0) u,
        mem_linkStep]
    constructor
    · rintro ((h | ⟨he, hk⟩) | ⟨x, hx, hxe, hxk⟩)
      · exact Or.inl h
      · exact Or.inr ⟨h0, List.mem_cons_self h0 hs, he, hk⟩
      · exact Or.inr ⟨x, List.mem_cons_of_mem h0 hx, hxe, hxk⟩
    · rintro (h | ⟨x, hx, hxe, hxk⟩)
      · exact Or.inl (Or.inl h)
      · rcases List.mem_cons.1 hx with rfl | hx2
        · exact Or.inl (Or.inr ⟨hxe, hxk⟩)
        · exact Or.inr ⟨x, hx2, hxe, hxk⟩

/-! ## Claim theorems -/

/-- C1: the claim states that after the traversal queue drains, main
scrapes every candidate, appends each non-null non-sentinel record, and
after all candidates serializes the accumulated list exactly once.  The
code cannot do this: on a run whose single candidate page yields a valid
record, the logging line 195 reads the nonexistent dictionary key
prereqs right after the first append, so main raises KeyError and the
output file is never written.  This theorem evaluates the model at that
failing input. -/
theorem c1_keyerror_crash :
    (mainModel 50 10 web1 [urlSeed]).outcome =
      Except.error (PyErr.keyError typoKey) := by rfl

/-- C2: every record in a list that reaches the json.dump call has a
non-empty (truthy) title and prerequisites different from the sentinel
Not specified; the filter at line 193 discards all others. -/
theorem c2_no_sentinel_in_output (df fuel : Nat) (web : Web) (seeds : List String)
    (out : List CourseRecord)
    (h : (mainModel df fuel web seeds).outcome = Except.ok out) :
    out.all goodRec = true := by
  unfold mainModel at h
  exact scrapeStage_ok_all df web _ [] out rfl h

theorem c2_no_sentinel_in_output_w : ([] : List CourseRecord).all goodRec = true :=
  c2_no_sentinel_in_output 50 10 webFail [urlSeed] [] (by rfl)

/-- C3 counterexample: the claim states that within a crawl run every
URL is fetched at most once across the traversal and extraction stages.
On the concrete web1 run the course page is fetched during traversal
(it was enqueued, being same-host) and fetched a second time by
scrape_prerequisites during the extraction stage: it occurs twice in
the combined fetch trace. -/
theorem c3_url_fetched_twice_cex :
    ((mainModel 50 10 web1 [urlSeed]).traversal.fetched ++
      (mainModel 50 10 web1 [urlSeed]).scrapeLog).count urlCourse = 2 := by rfl

/-- C3 amended: every URL is fetched at most once within the traversal
stage, and at most once within the extraction stage; a candidate that
was also enqueued for traversal is fetched once in each stage, hence up
to twice overall. -/
theorem c3_stagewise_fetch_once (df fuel : Nat) (web : Web) (seeds : List String)
    (h : seeds.Nodup) :
    (mainModel df fuel web seeds).traversal.fetched.Nodup ∧
    (mainModel df fuel web seeds).scrapeLog.Nodup := by
  have h0 : Inv0 seeds (initSt seeds) := by
    refine ⟨?_, fun s hs => hs, by simp [initSt]⟩
    intro u hu
    simpa [initSt] using hu
  have hN : InvN (initSt seeds) := by
    constructor
    · simpa [initSt] using h
    · simp [initSt]
  have hc := inv_crawlLoop df seeds web fuel (initSt seeds) h0
  have hNfin := hc.2 hN
  constructor
  · simp only [mainModel]
    exact List.Nodup.of_append_left hNfin.1
  · simp only [mainModel]
    exact scrapeLog_nodup df web _ [] hNfin.2

theorem c3_stagewise_fetch_once_w :
    (mainModel 50 10 web1 [urlSeed]).traversal.fetched.Nodup ∧
    (mainModel 50 10 web1 [urlSeed]).scrapeLog.Nodup :=
  c3_stagewise_fetch_once 50 10 web1 [urlSeed] (by decide)

/-- C4 counterexample: the claim defines domain as scheme plus host and
states that a link whose domain differs from the page it was found on
is never enqueued, and that any course-code-like link is added to the
candidate set.  The code compares only urlparse netloc (host): a
same-host link reached over https from an http page has a different
scheme-plus-host yet is enqueued; and a course-code-like link that is
already visited is not added to the candidate set. -/
theorem c4_scheme_enqueue_cex :
    (urlHttps ∈ (processLink urlSeed stFresh urlHttps).queue ∧
      schemeHostOf urlHttps ≠ schemeHostOf urlSeed) ∧
    ((processLink urlSeed stSeenB urlSeenB).cands = [] ∧
      searchCodeSub urlSeenB = true ∧ netlocOf urlSeenB ≠ netlocOf urlSeed) := by
  decide

/-- C4 amended: a discovered link is enqueued only when it was not yet
visited and its host (netloc) equals the host of the page it was found
on — so cross-host links are never enqueued — and, independently of
host, a not-yet-visited link containing a course-code-like digit
pattern is added to the candidate set. -/
theorem c4_host_containment (cur : String) (st : CrawlSt) (link u : String) :
    (u ∈ (processLink cur st link).queue →
      u ∈ st.queue ∨ (u = link ∧ link ∉ st.visited ∧ netlocOf link = netlocOf cur)) ∧
    (link ∉ st.visited → searchCodeSub link = true →
      link ∈ (processLink cur st link).cands) := by
  refine ⟨mem_queue_processLink, ?_⟩
  intro hv hc
  unfold processLink
  rw [if_neg hv]
  simp only [hc, if_true, mem_addIfNew]
  exact Or.inr trivial

theorem c4_host_containment_w :
    urlOther ∈ (processLink urlSeed stV urlOther).cands :=
  (c4_host_containment urlSeed stV urlOther urlOther).2 (by decide) (by rfl)

/-- C5 counterexample: the claim states that a resolved URL containing
a fragment marker, javascript or mailto is excluded from the returned
set unconditionally, even when it contains a course-code-like
substring.  In the code the exclusion test at line 94 sits in the elif
branch and is never reached when the digit pattern of line 91 matches:
a courses link with digits and a fragment marker is returned. -/
theorem c5_fragment_retained_cex :
    urlHash ∈ find_course_links 50 docHash baseHash ∧
    excludedSub urlHash = true := by
  constructor
  · decide
  · rfl

/-- C5 amended: a resolved anchor URL is in the returned set iff some
anchor href resolves to it, a keyword pattern matches it, and it either
contains a course-code digit pattern or contains none of fragment
marker, javascript, mailto — the unconditional-exclusion rule applies
only to URLs without a course-code digit pattern. -/
theorem c5_filter_membership (df : Nat) (html : List Node) (base u : String) :
    u ∈ find_course_links df html base ↔
      (∃ h, h ∈ anchorHrefs df html ∧ urljoin base h = u) ∧ keepLink u = true := by
  unfold find_course_links
  rw [mem_foldl_linkStep]
  constructor
  · rintro (h | ⟨x, hx, he, hk⟩)
    · exact absurd h (List.not_mem_nil u)
    · exact ⟨⟨x, hx, he⟩, hk⟩
  · rintro ⟨⟨x, hx, he⟩, hk⟩
    exact Or.inr ⟨x, hx, he, hk⟩

theorem c5_filter_membership_w :
    urlCourse ∈ find_course_links 50 docSeed urlSeed :=
  (c5_filter_membership 50 docSeed urlSeed urlCourse).mpr
    ⟨⟨urlCourse, by decide, by rfl⟩, by rfl⟩

/-- C6 counterexample: the claim reads the structured value as the
comma-joined tokens in order of first appearance with identical
duplicate strings collapsed.  re.findall keeps every non-overlapping
match: a statement naming the same course twice yields the token twice,
and the joined value differs from the collapsed one. -/
theorem c6_duplicate_tokens_cex :
    findCodes dupRaw = ["CS 101", "CS 101"] ∧
    structuredPrereqs dupRaw = "CS 101, CS 101" ∧
    structuredPrereqs dupRaw ≠ "CS 101" := by
  refine ⟨by rfl, by rfl, by decide⟩

/-- C6 amended: when the extracted raw statement contains at least one
course-code token, the record emitted by the Extractor carries exactly
the comma-space-joined list of all matched tokens in match order,
duplicates preserved; when no token matches, it carries the raw
statement verbatim. -/
theorem c6_joined_tokens (df : Nat) (web : Web) (url : String) (doc : List Node)
    (s : String) (h1 : web url = FetchResult.success doc)
    (h2 : prereqText df doc = some s) (h3 : s ≠ "") :
    (findCodes s ≠ [] →
      scrape_prerequisites df web url =
        some { title := pageTitle df doc url,
               prerequisites := joinComma (findCodes s), source := url }) ∧
    (findCodes s = [] →
      scrape_prerequisites df web url =
        some { title := pageTitle df doc url,
               prerequisites := s, source := url }) := by
  have hg : get_html web url = some doc := by
    unfold get_html
    rw [h1]
  constructor
  · intro hne
    unfold scrape_prerequisites
    rw [hg]
    dsimp only
    rw [h2]
    dsimp only
    rw [if_neg h3]
    unfold structuredPrereqs
    dsimp only
    rw [if_neg hne]
  · intro heq
    unfold scrape_prerequisites
    rw [hg]
    dsimp only
    rw [h2]
    dsimp only
    rw [if_neg h3]
    unfold structuredPrereqs
    dsimp only
    rw [if_pos heq]

theorem c6_joined_tokens_w :
    scrape_prerequisites 50 web1 urlCourse =
      some { title := pageTitle 50 docCourse urlCourse,
             prerequisites := joinComma (findCodes kRaw), source := urlCourse } :=
  (c6_joined_tokens 50 web1 urlCourse docCourse kRaw (by rfl) (by rfl)
    (by decide)).1 (by decide)

/-- C7 counterexample: the claim states that when the prerequisite
heading has a next sibling paragraph, list or generic block, its text
is used as the raw statement and the full-text fallback is not
consulted.  On docCE the heading is followed by an empty paragraph: the
sibling text is the empty string, yet the extractor consults the
fallback and returns its (non-empty) result instead. -/
theorem c7_empty_sibling_cex :
    siblingStatement 50 docCE = some ("") ∧
    prereqText 50 docCE = some ceRaw ∧ ceRaw ≠ "" := by
  refine ⟨by rfl, by rfl, by decide⟩

/-- C7 amended: when the heading path yields a non-empty sibling text,
that text is the raw statement and the fallback is not consulted; the
fallback full-text search is consulted exactly when the heading path
yields nothing or yields the empty string. -/
theorem c7_priority_order (df : Nat) (doc : List Node) :
    (∀ s, siblingStatement df doc = some s → s ≠ "" →
      prereqText df doc = some s) ∧
    (siblingStatement df doc = none →
      prereqText df doc = fallbackStatement df doc) ∧
    (∀ f, siblingStatement df doc = some ("") →
      fallbackStatement df doc = some f → prereqText df doc = some f) := by
  refine ⟨?_, ?_, ?_⟩
  · intro s hs hne
    unfold prereqText
    rw [hs]
    dsimp only
    rw [if_neg hne]
  · intro hn
    unfold prereqText
    rw [hn]
  · intro f hs hf
    unfold prereqText
    rw [hs]
    dsimp only
    rw [if_pos rfl, hf]

theorem c7_priority_order_w : prereqText 50 docCourse = some kRaw :=
  (c7_priority_order 50 docCourse).1 kRaw (by rfl) (by decide)

/-- C8: a fetch that fails with a network error, a non-2xx status or a
timeout returns the failure indicator none instead of raising, and such
a failure only skips that single URL: the traversal loop proceeds to
the rest of the queue with the state otherwise unchanged, and the
extraction loop records no data for the URL and continues with the
remaining candidates. -/
theorem c8_fetch_failure_skips (df fuel : Nat) (web : Web) (u : String)
    (q v c f rest : List String) (acc : List CourseRecord)
    (h : isFail (web u) = true) :
    get_html web u = none ∧
    crawlLoop df web (fuel + 1)
        { queue := u :: q, visited := v, cands := c, fetched := f } =
      crawlLoop df web fuel
        { queue := q, visited := v, cands := c, fetched := f ++ [u] } ∧
    scrape_prerequisites df web u = none ∧
    scrapeStage df web (u :: rest) acc =
      (u :: (scrapeStage df web rest acc).1, (scrapeStage df web rest acc).2) := by
  have hg : get_html web u = none := by
    unfold get_html
    cases hw : web u with
    | success d =>
      rw [hw] at h
      exact absurd h (by simp [isFail])
    | networkError => rfl
    | httpError => rfl
    | timeout => rfl
  have hsp : scrape_prerequisites df web u = none := by
    unfold scrape_prerequisites
    rw [hg]
  refine ⟨hg, ?_, hsp, ?_⟩
  · simp only [crawlLoop]
    unfold processPage
    rw [hg]
  · simp only [scrapeStage, hsp]

theorem c8_fetch_failure_skips_w :
    get_html web1 urlNope = none ∧
    crawlLoop 50 web1 3
        { queue := urlNope :: [], visited := [urlNope], cands := [], fetched := [] } =
      crawlLoop 50 web1 2
        { queue := [], visited := [urlNope], cands := [],
          fetched := [] ++ [urlNope] } ∧
    scrape_prerequisites 50 web1 urlNope = none ∧
    scrapeStage 50 web1 (urlNope :: []) [] =
      (urlNope :: (scrapeStage 50 web1 [] []).1, (scrapeStage 50 web1 [] []).2) :=
  c8_fetch_failure_skips 50 2 web1 urlNope [] [urlNope] [] [] [] [] (by rfl)

/-- C9: the lookup answers with the stored prerequisite message of a
course whose title equals the query up to case whenever one exists
(the first such course in dataset order), and answers with the
not-found message exactly when no stored title matches the query up to
case. -/
theorem c9_lookup_correct (data : List CourseRecord) (q : String) :
    (find_prerequisites q data = notFoundMsg q ↔
      ∀ c, c ∈ data → lowerStr c.title ≠ lowerStr q) ∧
    ((∃ c, c ∈ data ∧ lowerStr c.title = lowerStr q) →
      ∃ c, c ∈ data ∧ lowerStr c.title = lowerStr q ∧
        find_prerequisites q data = mkFound c) := by
  induction data with
  | nil =>
    constructor
    · simp [find_prerequisites]
    · rintro ⟨c, hc, _⟩
      exact absurd hc (List.not_mem_nil c)
  | cons c rest ih =>
    by_cases hm : lowerStr c.title = lowerStr q
    · constructor
      · constructor
        · intro h
          unfold find_prerequisites at h
          rw [if_pos hm] at h
          exact absurd h (mkFound_ne_notFound c q)
        · intro hall
          exact absurd hm (hall c (List.mem_cons_self c rest))
      · intro _
        refine ⟨c, List.mem_cons_self c rest, hm, ?_⟩
        unfold find_prerequisites
        rw [if_pos hm]
    · have hstep : find_prerequisites q (c :: rest) = find_prerequisites q rest := by
        simp only [find_prerequisites, if_neg hm]
      constructor
      · rw [hstep, ih.1]
        constructor
        · intro hall c2 hc2
          rcases List.mem_cons.1 hc2 with rfl | h2
          · exact hm
          · exact hall c2 h2
        · intro hall c2 hc2
          exact hall c2 (List.mem_cons_of_mem c hc2)
      · rintro ⟨c2, hc2, hm2⟩
        rcases List.mem_cons.1 hc2 with rfl | h2
        · exact absurd hm2 hm
        · obtain ⟨c3, hc3, hm3, he⟩ := ih.2 ⟨c2, h2, hm2⟩
          exact ⟨c3, List.mem_cons_of_mem c hc3, hm3, by rw [hstep]; exact he⟩

theorem c9_lookup_correct_w :
    ∃ c, c ∈ dataW ∧ lowerStr c.title = lowerStr queryW ∧
      find_prerequisites queryW dataW = mkFound c :=
  (c9_lookup_correct dataW queryW).2 ⟨recW, by decide, by rfl⟩

/-- C10: candidates are only ever added from links that were not yet
visited, and every seed is visited from the start, so a seed URL is
never in the candidate set and is never scraped by the extraction
stage. -/
theorem c10_seeds_never_candidates (df fuel : Nat) (web : Web)
    (seeds : List String) (s : String) (h : s ∈ seeds) :
    s ∉ (mainModel df fuel web seeds).traversal.cands ∧
    s ∉ (mainModel df fuel web seeds).scrapeLog := by
  have h0 : Inv0 seeds (initSt seeds) := by
    refine ⟨?_, fun t ht => ht, by simp [initSt]⟩
    intro u hu
    simpa [initSt] using hu
  have hfin := (inv_crawlLoop df seeds web fuel (initSt seeds) h0).1
  constructor
  · intro hmem
    simp only [mainModel] at hmem
    exact hfin.2.2 s hmem h
  · intro hmem
    simp only [mainModel] at hmem
    exact hfin.2.2 s (scrapeLog_mem df web _ [] s hmem) h

theorem c10_seeds_never_candidates_w :
    urlSeed ∉ (mainModel 50 10 web1 [urlSeed]).traversal.cands ∧
    urlSeed ∉ (mainModel 50 10 web1 [urlSeed]).scrapeLog :=
  c10_seeds_never_candidates 50 10 web1 [urlSeed] urlSeed (by decide)
